import Mathlib

/-!
Shallow embedding of `nifi/client.go` from terraform-provider-nifi.

The Go client is a thin JSON-over-HTTP layer: a single call primitive
(`JsonCall`) plus CRUD operations for process groups, processors and
connections.  We model JSON documents as an inductive tree, the HTTP
exchange as a value of `HttpOutcome` (what the server did), and Go's
`encoding/json` marshalling of the entity structs as explicit `toJson`
functions following the struct tags (field order, `omitempty`).
Decoding of response bodies (reflection-based `json.Decoder.Decode`) is
taken as a parameter `Json → Option α`, `none` meaning a malformed body.
`float64` positions are modelled with integer coordinates: no claim
depends on coordinate arithmetic, only on the presence of the fields.
-/

namespace Nifi

/-- A JSON document, as produced by Go's `encoding/json`.  Objects keep
their fields as an ordered association list (Go emits struct fields in
declaration order; map keys are sorted by Go, a detail no claim
observes). -/
inductive Json where
  | null : Json
  | bool (b : Bool) : Json
  | num (n : Int) : Json
  | str (s : String) : Json
  | arr (xs : List Json) : Json
  | obj (kvs : List (String × Json)) : Json

/-- `v == nil` on a decoded `interface\x7b\x7d` value: the JSON null. -/
def Json.isNull : Json → Bool
  | .null => true
  | _ => false

mutual

/-- Rendering of a JSON tree to the bytes Go's encoder writes. -/
def Json.render : Json → String
  | .null => "null"
  | .bool b => cond b "true" "false"
  | .num n => toString n
  | .str s => "\"" ++ s ++ "\""
  | .arr xs => "[" ++ Json.renderItems xs ++ "]"
  | .obj kvs => "\x7b" ++ Json.renderFields kvs ++ "\x7d"

/-- Comma-separated rendering of array elements. -/
def Json.renderItems : List Json → String
  | [] => ""
  | [x] => x.render
  | x :: y :: xs => x.render ++ "," ++ Json.renderItems (y :: xs)

/-- Comma-separated rendering of object fields. -/
def Json.renderFields : List (String × Json) → String
  | [] => ""
  | [kv] => "\"" ++ kv.1 ++ "\":" ++ kv.2.render
  | kv :: kv2 :: kvs =>
      "\"" ++ kv.1 ++ "\":" ++ kv.2.render ++ "," ++ Json.renderFields (kv2 :: kvs)

end

/-- `json.NewEncoder(buffer).Encode(bodyIn)` writes some bytes to the
buffer and returns an error; `JsonCall` ignores that error.  `written`
are the bytes found in the buffer afterwards (possibly empty), and
`encError` is the discarded result of `Encode`. -/
structure EncodeAttempt where
  written : String
  encError : Option String
deriving DecidableEq, Repr

/-- The HTTP request `JsonCall` hands to the transport: method, URL, the
optional body bytes, and the Content-Type header that is added exactly
when a request payload was supplied. -/
structure JsonRequest where
  method : String
  url : String
  body : Option String
  contentType : Option String
deriving DecidableEq, Repr

/-- What the transport did for this one call: either a transport-level
failure (`http.NewRequest` or `Client.Do` returning an error), or a
response with a status code and a body. -/
inductive HttpOutcome where
  | transportFailure : HttpOutcome
  | response (status : Nat) (body : Json) : HttpOutcome

/-- The errors `JsonCall` can return: the propagated transport error,
the formatted `fmt.Errorf` carrying the status code, or the decode
error from `json.Decoder.Decode`. -/
inductive JsonError where
  | transport : JsonError
  | apiError (code : Nat) : JsonError
  | decodeError : JsonError
deriving DecidableEq, Repr

/-- Modelled from the spec: the `Config` type (host and API-path prefix,
section 6) lives in a source file outside the provided `client.go`; only
its `Host` and `ApiPath` fields are read there. -/
structure Config where
  host : String
  apiPath : String
deriving DecidableEq, Repr

/-- `func (c *Client) JsonCall(method, url string, bodyIn, bodyOut
interface\x7b\x7d) (error, int)`.

Inputs: `bodyIn` is the outcome of encoding the request payload (`none`
when the Go caller passes `nil`); `outcome` is what the transport did;
`bodyOut` is the decoder for the output target (`none` when the Go
caller passes `nil`).  Output: the request issued, the Go `(error, int)`
pair, and the value that got decoded into `bodyOut` (`none` if nothing
was decoded). -/
def JsonCall (method url : String) (bodyIn : Option EncodeAttempt)
    (outcome : HttpOutcome) (bodyOut : Option (Json → Option α)) :
    JsonRequest × (Option JsonError × Nat) × Option α :=
  let request : JsonRequest :=
    { method := method, url := url,
      body := bodyIn.map EncodeAttempt.written,
      contentType := bodyIn.map (fun _ => "application/json; charset=utf-8") }
  match outcome with
  | .transportFailure => (request, (some .transport, 0), none)
  | .response status body =>
    if status == 404 then
      (request, (none, status), none)
    else if 300 ≤ status then
      (request, (some (.apiError status), status), none)
    else
      match bodyOut with
      | none => (request, (none, status), none)
      | some decode =>
        match decode body with
        | none => (request, (some .decodeError, status), none)
        | some v => (request, (none, status), some v)

/-- `Encode` on the entity structs of this client always succeeds; the
encoder terminates the value with a newline. -/
def goEncode (j : Json) : EncodeAttempt :=
  { written := j.render ++ "\n", encError := none }

-- Common section

/-- `type Revision struct`. -/
structure Revision where
  version : Int
deriving DecidableEq, Repr

/-- `type Position struct` (coordinates are `float64` in Go; modelled
as integers, no claim computes with them). -/
structure Position where
  x : Int
  y : Int
deriving DecidableEq, Repr

/-- Marshalling per the tag `json:"version"`. -/
def Revision.toJson (r : Revision) : Json :=
  .obj [("version", .num r.version)]

/-- Marshalling per the tags `json:"x"`, `json:"y"`. -/
def Position.toJson (p : Position) : Json :=
  .obj [("x", .num p.x), ("y", .num p.y)]

-- Process Group section

/-- `type ProcessGroupComponent struct`. -/
structure ProcessGroupComponent where
  id : String
  parentGroupId : String
  name : String
  position : Position
deriving DecidableEq, Repr

/-- `type ProcessGroup struct`. -/
structure ProcessGroup where
  revision : Revision
  component : ProcessGroupComponent
deriving DecidableEq, Repr

/-- Marshalling of `ProcessGroupComponent`: fields in declaration
order; `Id` has `omitempty`, so it is dropped when empty. -/
def ProcessGroupComponent.toJson (c : ProcessGroupComponent) : Json :=
  .obj ((if c.id = "" then [] else [("id", .str c.id)]) ++
    [("parentGroupId", .str c.parentGroupId),
     ("name", .str c.name),
     ("position", c.position.toJson)])

/-- Marshalling of `ProcessGroup`. -/
def ProcessGroup.toJson (g : ProcessGroup) : Json :=
  .obj [("revision", g.revision.toJson), ("component", g.component.toJson)]

/-- `func (c *Client) CreateProcessGroup(processGroup *ProcessGroup)
error`.  `decode` models `json.Decoder.Decode` into the same
`*ProcessGroup` that supplied the body.  Returns the issued request,
the structure as left in the caller's memory, and the error. -/
def CreateProcessGroup (cfg : Config) (outcome : HttpOutcome)
    (decode : Json → Option ProcessGroup) (processGroup : ProcessGroup) :
    JsonRequest × ProcessGroup × Option JsonError :=
  let url := "http://" ++ cfg.host ++ "/" ++ cfg.apiPath ++
    "/process-groups/" ++ processGroup.component.parentGroupId ++ "/process-groups"
  let (request, (err, _), out) :=
    JsonCall "POST" url (some (goEncode processGroup.toJson)) outcome (some decode)
  (request, out.getD processGroup, err)

/-- `func (c *Client) GetProcessGroup(processGroupId string)
(*ProcessGroup, error)`.  Returns the issued request and the Go
`(*ProcessGroup, error)` pair. -/
def GetProcessGroup (cfg : Config) (outcome : HttpOutcome)
    (decode : Json → Option ProcessGroup) (processGroupId : String) :
    JsonRequest × Option ProcessGroup × Option JsonError :=
  let url := "http://" ++ cfg.host ++ "/" ++ cfg.apiPath ++
    "/process-groups/" ++ processGroupId
  let (request, (err, code), out) :=
    JsonCall "GET" url none outcome (some decode)
  match err with
  | some e => (request, none, some e)
  | none =>
    if 404 == code then (request, none, none)
    else (request, out, none)

/-- `func (c *Client) UpdateProcessGroup(processGroup *ProcessGroup)
error`. -/
def UpdateProcessGroup (cfg : Config) (outcome : HttpOutcome)
    (decode : Json → Option ProcessGroup) (processGroup : ProcessGroup) :
    JsonRequest × ProcessGroup × Option JsonError :=
  let url := "http://" ++ cfg.host ++ "/" ++ cfg.apiPath ++
    "/process-groups/" ++ processGroup.component.id
  let (request, (err, _), out) :=
    JsonCall "PUT" url (some (goEncode processGroup.toJson)) outcome (some decode)
  (request, out.getD processGroup, err)

/-- `func (c *Client) DeleteProcessGroup(processGroupId string) error`. -/
def DeleteProcessGroup (cfg : Config) (outcome : HttpOutcome)
    (processGroupId : String) : JsonRequest × Option JsonError :=
  let url := "http://" ++ cfg.host ++ "/" ++ cfg.apiPath ++
    "/process-groups/" ++ processGroupId
  let (request, (err, _), _) :=
    JsonCall "DELETE" url none outcome (none : Option (Json → Option Unit))
  (request, err)

-- Processor section

/-- `type ProcessorRelationship struct`. -/
structure ProcessorRelationship where
  name : String
  autoTerminate : Bool
deriving DecidableEq, Repr

/-- `type ProcessorConfig struct`.  `Properties` is a
`map[string]interface\x7b\x7d` (`none` models the nil map, entries keep
decoded JSON values, `Json.null` being a nil interface value);
`AutoTerminatedRelationships` is a `[]string` (`none` models the nil
slice). -/
structure ProcessorConfig where
  schedulingStrategy : String
  schedulingPeriod : String
  concurrentlySchedulableTaskCount : Int
  properties : Option (List (String × Json))
  autoTerminatedRelationships : Option (List String)

/-- `type ProcessorComponent struct`.  `Relationships` is a
`[]ProcessorRelationship` (`none` models the nil slice). -/
structure ProcessorComponent where
  id : String
  parentGroupId : String
  name : String
  type : String
  position : Position
  state : String
  config : ProcessorConfig
  relationships : Option (List ProcessorRelationship)

/-- `type Processor struct`. -/
structure Processor where
  revision : Revision
  component : ProcessorComponent

/-- Marshalling of `ProcessorConfig`: a nil map/slice marshals to JSON
null (Go sorts map keys when marshalling; the association list keeps
insertion order, a difference no claim observes). -/
def ProcessorConfig.toJson (c : ProcessorConfig) : Json :=
  .obj [("schedulingStrategy", .str c.schedulingStrategy),
    ("schedulingPeriod", .str c.schedulingPeriod),
    ("concurrentlySchedulableTaskCount", .num c.concurrentlySchedulableTaskCount),
    ("properties", match c.properties with
      | none => .null
      | some kvs => .obj kvs),
    ("autoTerminatedRelationships", match c.autoTerminatedRelationships with
      | none => .null
      | some xs => .arr (xs.map .str))]

/-- Marshalling of `ProcessorRelationship`. -/
def ProcessorRelationship.toJson (r : ProcessorRelationship) : Json :=
  .obj [("name", .str r.name), ("autoTerminate", .bool r.autoTerminate)]

/-- Marshalling of `ProcessorComponent`: fields in declaration order;
`Id` and `State` carry `omitempty`, so each is dropped when it is the
empty string. -/
def ProcessorComponent.toJson (c : ProcessorComponent) : Json :=
  .obj ((if c.id = "" then [] else [("id", .str c.id)]) ++
    [("parentGroupId", .str c.parentGroupId),
     ("name", .str c.name),
     ("type", .str c.type),
     ("position", c.position.toJson)] ++
    (if c.state = "" then [] else [("state", .str c.state)]) ++
    [("config", c.config.toJson),
     ("relationships", match c.relationships with
       | none => .null
       | some rs => .arr (rs.map ProcessorRelationship.toJson))])

/-- Marshalling of `Processor`. -/
def Processor.toJson (p : Processor) : Json :=
  .obj [("revision", p.revision.toJson), ("component", p.component.toJson)]

/-- `func (c *Client) ProcessorCleanupNilProperties(processor
*Processor) error`: deletes from the properties map every key whose
value is nil (ranging over a nil map does nothing).  The Go receiver
mutates in place and always returns nil; the model returns the updated
structure. -/
def ProcessorCleanupNilProperties (processor : Processor) : Processor :=
  { processor with component.config.properties :=
      (processor.component.config.properties.map
        (List.filter (fun kv => !kv.2.isNull))) }

/-- `func (c *Client) CreateProcessor(processor *Processor) error`:
POST, then the nil-property cleanup runs on the caller's structure
whatever the call returned. -/
def CreateProcessor (cfg : Config) (outcome : HttpOutcome)
    (decode : Json → Option Processor) (processor : Processor) :
    JsonRequest × Processor × Option JsonError :=
  let url := "http://" ++ cfg.host ++ "/" ++ cfg.apiPath ++
    "/process-groups/" ++ processor.component.parentGroupId ++ "/processors"
  let (request, (err, _), out) :=
    JsonCall "POST" url (some (goEncode processor.toJson)) outcome (some decode)
  (request, ProcessorCleanupNilProperties (out.getD processor), err)

/-- `func (c *Client) GetProcessor(processorId string) (*Processor,
error)`: GET; 404 yields `(nil, nil)`; otherwise the decoded processor
is cleaned of nil properties and its auto-terminated relationship
names are projected into `Config.AutoTerminatedRelationships` (the
loop starts from the non-nil empty slice `[]string\x7b\x7d`). -/
def GetProcessor (cfg : Config) (outcome : HttpOutcome)
    (decode : Json → Option Processor) (processorId : String) :
    JsonRequest × Option Processor × Option JsonError :=
  let url := "http://" ++ cfg.host ++ "/" ++ cfg.apiPath ++
    "/processors/" ++ processorId
  let (request, (err, code), out) :=
    JsonCall "GET" url none outcome (some decode)
  match err with
  | some e => (request, none, some e)
  | none =>
    if 404 == code then (request, none, none)
    else
      match out with
      | none => (request, none, none)
      | some processor =>
        let processor := ProcessorCleanupNilProperties processor
        let relationships :=
          (processor.component.relationships.getD []).foldl
            (fun acc v => if v.autoTerminate then acc ++ [v.name] else acc) []
        (request,
         some { processor with
                  component.config.autoTerminatedRelationships := some relationships },
         none)

/-- `func (c *Client) UpdateProcessor(processor *Processor) error`:
PUT, then the nil-property cleanup runs on the caller's structure
whatever the call returned. -/
def UpdateProcessor (cfg : Config) (outcome : HttpOutcome)
    (decode : Json → Option Processor) (processor : Processor) :
    JsonRequest × Processor × Option JsonError :=
  let url := "http://" ++ cfg.host ++ "/" ++ cfg.apiPath ++
    "/processors/" ++ processor.component.id
  let (request, (err, _), out) :=
    JsonCall "PUT" url (some (goEncode processor.toJson)) outcome (some decode)
  (request, ProcessorCleanupNilProperties (out.getD processor), err)

/-- `func (c *Client) DeleteProcessor(processorId string) error`. -/
def DeleteProcessor (cfg : Config) (outcome : HttpOutcome)
    (processorId : String) : JsonRequest × Option JsonError :=
  let url := "http://" ++ cfg.host ++ "/" ++ cfg.apiPath ++
    "/processors/" ++ processorId
  let (request, (err, _), _) :=
    JsonCall "DELETE" url none outcome (none : Option (Json → Option Unit))
  (request, err)

/-- The local `stateUpdate := Processor\x7b...\x7d` value built by
`SetProcessorState`: only `Revision.Version`, `Component.Id` and
`Component.State` are set; every other field is the Go zero value of
its type (empty strings, zero position, nil map and nil slices). -/
def stateUpdateBody (processor : Processor) (state : String) : Processor :=
  { revision := { version := processor.revision.version },
    component :=
      { id := processor.component.id,
        parentGroupId := "",
        name := "",
        type := "",
        position := { x := 0, y := 0 },
        state := state,
        config :=
          { schedulingStrategy := "",
            schedulingPeriod := "",
            concurrentlySchedulableTaskCount := 0,
            properties := none,
            autoTerminatedRelationships := none },
        relationships := none } }

/-- `func (c *Client) SetProcessorState(processor *Processor, state
string) error`: PUT of the `stateUpdate` body with no output target; on
nil error the in-memory `Component.State` is set to the target. -/
def SetProcessorState (cfg : Config) (outcome : HttpOutcome)
    (processor : Processor) (state : String) :
    JsonRequest × Processor × Option JsonError :=
  let url := "http://" ++ cfg.host ++ "/" ++ cfg.apiPath ++
    "/processors/" ++ processor.component.id
  let (request, (err, _), _) :=
    JsonCall "PUT" url (some (goEncode (stateUpdateBody processor state).toJson))
      outcome (none : Option (Json → Option Unit))
  match err with
  | none => (request, { processor with component.state := state }, none)
  | some e => (request, processor, some e)

/-- `func (c *Client) StartProcessor(processor *Processor) error`. -/
def StartProcessor (cfg : Config) (outcome : HttpOutcome)
    (processor : Processor) : JsonRequest × Processor × Option JsonError :=
  SetProcessorState cfg outcome processor "RUNNING"

/-- `func (c *Client) StopProcessor(processor *Processor) error`. -/
def StopProcessor (cfg : Config) (outcome : HttpOutcome)
    (processor : Processor) : JsonRequest × Processor × Option JsonError :=
  SetProcessorState cfg outcome processor "STOPPED"

-- Connection section

/-- `type ConnectionHand struct`. -/
structure ConnectionHand where
  type : String
  id : String
deriving DecidableEq, Repr

/-- `type ConnectionComponent struct`.  `SelectedRelationships` is a
`[]string` and `Bends` a `[]Position` (`none` models the nil slice). -/
structure ConnectionComponent where
  id : String
  parentGroupId : String
  source : ConnectionHand
  destination : ConnectionHand
  selectedRelationships : Option (List String)
  bends : Option (List Position)
deriving DecidableEq, Repr

/-- `type Connection struct`. -/
structure Connection where
  revision : Revision
  component : ConnectionComponent
deriving DecidableEq, Repr

/-- Marshalling of `ConnectionHand`. -/
def ConnectionHand.toJson (h : ConnectionHand) : Json :=
  .obj [("type", .str h.type), ("id", .str h.id)]

/-- Marshalling of `ConnectionComponent`: `Id` carries `omitempty`. -/
def ConnectionComponent.toJson (c : ConnectionComponent) : Json :=
  .obj ((if c.id = "" then [] else [("id", .str c.id)]) ++
    [("parentGroupId", .str c.parentGroupId),
     ("source", c.source.toJson),
     ("destination", c.destination.toJson),
     ("selectedRelationships", match c.selectedRelationships with
       | none => .null
       | some xs => .arr (xs.map .str)),
     ("bends", match c.bends with
       | none => .null
       | some ps => .arr (ps.map Position.toJson))])

/-- Marshalling of `Connection`. -/
def Connection.toJson (c : Connection) : Json :=
  .obj [("revision", c.revision.toJson), ("component", c.component.toJson)]

/-- `func (c *Client) CreateConnection(connection *Connection) error`. -/
def CreateConnection (cfg : Config) (outcome : HttpOutcome)
    (decode : Json → Option Connection) (connection : Connection) :
    JsonRequest × Connection × Option JsonError :=
  let url := "http://" ++ cfg.host ++ "/" ++ cfg.apiPath ++
    "/process-groups/" ++ connection.component.parentGroupId ++ "/connections"
  let (request, (err, _), out) :=
    JsonCall "POST" url (some (goEncode connection.toJson)) outcome (some decode)
  (request, out.getD connection, err)

/-- `func (c *Client) GetConnection(connectionId string) (*Connection,
error)`. -/
def GetConnection (cfg : Config) (outcome : HttpOutcome)
    (decode : Json → Option Connection) (connectionId : String) :
    JsonRequest × Option Connection × Option JsonError :=
  let url := "http://" ++ cfg.host ++ "/" ++ cfg.apiPath ++
    "/connections/" ++ connectionId
  let (request, (err, code), out) :=
    JsonCall "GET" url none outcome (some decode)
  match err with
  | some e => (request, none, some e)
  | none =>
    if 404 == code then (request, none, none)
    else (request, out, none)

/-- `func (c *Client) UpdateConnection(connection *Connection) error`. -/
def UpdateConnection (cfg : Config) (outcome : HttpOutcome)
    (decode : Json → Option Connection) (connection : Connection) :
    JsonRequest × Connection × Option JsonError :=
  let url := "http://" ++ cfg.host ++ "/" ++ cfg.apiPath ++
    "/connections/" ++ connection.component.id
  let (request, (err, _), out) :=
    JsonCall "PUT" url (some (goEncode connection.toJson)) outcome (some decode)
  (request, out.getD connection, err)

/-- `func (c *Client) DeleteConnection(connectionId string) error`. -/
def DeleteConnection (cfg : Config) (outcome : HttpOutcome)
    (connectionId : String) : JsonRequest × Option JsonError :=
  let url := "http://" ++ cfg.host ++ "/" ++ cfg.apiPath ++
    "/connections/" ++ connectionId
  let (request, (err, _), _) :=
    JsonCall "DELETE" url none outcome (none : Option (Json → Option Unit))
  (request, err)

-- Observation helpers and concrete values used in the statements

/-- The value of a top-level field of a serialized entity (`none` when
the document is not an object or lacks the field). -/
def topField (j : Json) (k : String) : Option Json :=
  match j with
  | .obj kvs => kvs.lookup k
  | _ => none

/-- The field names of the `"component"` member of a serialized entity
(empty when absent or not an object). -/
def componentFieldNames (j : Json) : List String :=
  match topField j "component" with
  | some (.obj fields) => fields.map Prod.fst
  | _ => []

/-- Whether a processor's properties mapping holds no null-valued
entry (a nil map trivially holds none). -/
def noNilProperties (p : Processor) : Bool :=
  (p.component.config.properties.getD []).all (fun kv => !kv.2.isNull)

/-- A concrete configuration for witnesses. -/
def exCfg : Config :=
  { host := "localhost:8080", apiPath := "nifi-api" }

/-- A concrete processor for witnesses: revision 3, one null-valued
property, one auto-terminated and one ordinary relationship. -/
def exProcessor : Processor :=
  { revision := { version := 3 },
    component :=
      { id := "p1",
        parentGroupId := "root",
        name := "gen",
        type := "org.apache.nifi.GenerateFlowFile",
        position := { x := 1, y := 2 },
        state := "STOPPED",
        config :=
          { schedulingStrategy := "TIMER_DRIVEN",
            schedulingPeriod := "1 sec",
            concurrentlySchedulableTaskCount := 1,
            properties := some [("keep", .str "v"), ("drop", .null)],
            autoTerminatedRelationships := none },
        relationships := some
          [{ name := "success", autoTerminate := true },
           { name := "failure", autoTerminate := false }] } }

/-- What `GetProcessor` hands back when the server's body decodes to
`exProcessor`: properties cleaned of nulls and the auto-terminated
names projected. -/
def exGetResult : Processor :=
  { ProcessorCleanupNilProperties exProcessor with
      component.config.autoTerminatedRelationships := some ["success"] }

/-- A concrete process group holding a nonzero revision. -/
def exGroup5 : ProcessGroup :=
  { revision := { version := 5 },
    component :=
      { id := "", parentGroupId := "root", name := "etl",
        position := { x := 0, y := 0 } } }

/-- A concrete server answer for a create: assigned id and revision. -/
def exGroupCreated : ProcessGroup :=
  { revision := { version := 1 },
    component :=
      { id := "pg-new", parentGroupId := "root", name := "etl",
        position := { x := 0, y := 0 } } }

-- Characterization of the call primitive, by case on the outcome

/-- The request issued by `JsonCall` is determined by method, URL and
the encoded payload alone. -/
theorem jsonCall_request {α : Type} (m u : String) (bIn : Option EncodeAttempt)
    (o : HttpOutcome) (bOut : Option (Json → Option α)) :
    (JsonCall m u bIn o bOut).1 =
      { method := m, url := u, body := bIn.map EncodeAttempt.written,
        contentType := bIn.map (fun _ => "application/json; charset=utf-8") } := by
  cases o with
  | transportFailure => rfl
  | response status body =>
    unfold JsonCall
    dsimp only
    split
    · rfl
    split
    · rfl
    split
    · rfl
    split <;> rfl

/-- A transport failure propagates with status 0 and nothing decoded. -/
theorem jsonCall_snd_transport {α : Type} (m u : String)
    (bIn : Option EncodeAttempt) (bOut : Option (Json → Option α)) :
    (JsonCall m u bIn .transportFailure bOut).2 =
      ((some .transport, 0), none) := rfl

/-- A 404 response gives a nil error, the code 404, and no decoding. -/
theorem jsonCall_snd_404 {α : Type} (m u : String) (bIn : Option EncodeAttempt)
    (body : Json) (bOut : Option (Json → Option α)) :
    (JsonCall m u bIn (.response 404 body) bOut).2 = ((none, 404), none) := rfl

/-- A non-404 response with status at least 300 gives the formatted
error carrying the status code, and no decoding. -/
theorem jsonCall_snd_ge300 {α : Type} (m u : String) (bIn : Option EncodeAttempt)
    (status : Nat) (body : Json) (bOut : Option (Json → Option α))
    (h4 : status ≠ 404) (h3 : 300 ≤ status) :
    (JsonCall m u bIn (.response status body) bOut).2 =
      ((some (.apiError status), status), none) := by
  have hb : (status == 404) = false := by
    rw [beq_eq_false_iff_ne]
    exact h4
  unfold JsonCall
  simp [hb, h3]

/-- A response below 300 with an output target decodes the body into
it, a malformed body giving the decode error (status still carried). -/
theorem jsonCall_snd_ok {α : Type} (m u : String) (bIn : Option EncodeAttempt)
    (status : Nat) (body : Json) (decode : Json → Option α)
    (h : status < 300) :
    (JsonCall m u bIn (.response status body) (some decode)).2 =
      match decode body with
      | none => ((some .decodeError, status), none)
      | some v => ((none, status), some v) := by
  have hb : (status == 404) = false := by
    rw [beq_eq_false_iff_ne]
    omega
  have h3 : ¬ 300 ≤ status := by omega
  unfold JsonCall
  simp [hb, h3]
  split <;> simp [*]

/-- A response below 300 with no output target succeeds without
decoding anything. -/
theorem jsonCall_snd_ok_noTarget {α : Type} (m u : String)
    (bIn : Option EncodeAttempt) (status : Nat) (body : Json)
    (h : status < 300) :
    (JsonCall m u bIn (.response status body)
        (none : Option (Json → Option α))).2 = ((none, status), none) := by
  have hb : (status == 404) = false := by
    rw [beq_eq_false_iff_ne]
    omega
  have h3 : ¬ 300 ≤ status := by omega
  unfold JsonCall
  simp [hb, h3]

-- Unfolding lemmas for the operations whose result branches on the
-- call's error, and facts about the cleanup and the projection loop

/-- `SetProcessorState` written as a branch on the error component of
its call. -/
theorem SetProcessorState_eq (cfg : Config) (outcome : HttpOutcome)
    (p : Processor) (s : String) :
    SetProcessorState cfg outcome p s =
      (let call := JsonCall "PUT"
          ("http://" ++ cfg.host ++ "/" ++ cfg.apiPath ++ "/processors/" ++
            p.component.id)
          (some (goEncode (stateUpdateBody p s).toJson)) outcome
          (none : Option (Json → Option Unit));
       match call.2.1.1 with
       | none => (call.1, { p with component.state := s }, none)
       | some e => (call.1, p, some e)) := rfl

/-- `GetProcessor` written as a branch on the error, code and decoded
value of its call. -/
theorem GetProcessor_eq (cfg : Config) (outcome : HttpOutcome)
    (decode : Json → Option Processor) (processorId : String) :
    GetProcessor cfg outcome decode processorId =
      (let call := JsonCall "GET"
          ("http://" ++ cfg.host ++ "/" ++ cfg.apiPath ++ "/processors/" ++
            processorId) none outcome (some decode);
       match call.2.1.1 with
       | some e => (call.1, none, some e)
       | none =>
         if 404 == call.2.1.2 then (call.1, none, none)
         else
           match call.2.2 with
           | none => (call.1, none, none)
           | some processor =>
             let processor := ProcessorCleanupNilProperties processor
             let relationships :=
               (processor.component.relationships.getD []).foldl
                 (fun acc v => if v.autoTerminate then acc ++ [v.name] else acc) []
             (call.1,
              some { processor with
                       component.config.autoTerminatedRelationships :=
                         some relationships },
              none)) := rfl

/-- The projection loop of `GetProcessor`, run from any accumulator,
appends exactly the names of the auto-terminated relationships. -/
theorem foldl_autoTerminate (l : List ProcessorRelationship)
    (acc : List String) :
    l.foldl (fun acc v => if v.autoTerminate then acc ++ [v.name] else acc) acc =
      acc ++ (l.filter (fun v => v.autoTerminate)).map (fun v => v.name) := by
  induction l generalizing acc with
  | nil => simp
  | cons x xs ih =>
    cases hx : x.autoTerminate <;> simp [hx, ih]

/-- `isNull` decides equality with the JSON null. -/
theorem Json.isNull_eq_false_iff (j : Json) : j.isNull = false ↔ j ≠ .null := by
  cases j <;> simp [Json.isNull]

/-- The cleanup leaves a mapping with no null-valued entry. -/
theorem noNilProperties_cleanup (x : Processor) :
    noNilProperties (ProcessorCleanupNilProperties x) = true := by
  obtain ⟨rev, id, pgid, nm, ty, pos, st, ⟨ss, sp, cc, props, atr⟩, rels⟩ := x
  cases props with
  | none => rfl
  | some l =>
    simp only [noNilProperties, ProcessorCleanupNilProperties, Option.map_some,
      Option.getD_some, List.all_eq_true]
    intro kv hkv
    exact (List.mem_filter.mp hkv).2

-- Claim theorems

/-- C1: for every `JsonCall` on a response, status 404 yields a nil
error with the status surfaced and nothing decoded; a status ≥ 300
other than 404 yields the error carrying that status; a status < 300
with an output target decodes the body into it, a malformed body
yielding the decode error. -/
theorem jsonCall_response_classification {α : Type} (m u : String)
    (bIn : Option EncodeAttempt) (status : Nat) (body : Json)
    (decode : Json → Option α) :
    (status = 404 →
      (JsonCall m u bIn (.response status body) (some decode)).2 =
        ((none, 404), none)) ∧
    (status ≠ 404 → 300 ≤ status →
      (JsonCall m u bIn (.response status body) (some decode)).2 =
        ((some (.apiError status), status), none)) ∧
    (status < 300 → ∀ v, decode body = some v →
      (JsonCall m u bIn (.response status body) (some decode)).2 =
        ((none, status), some v)) ∧
    (status < 300 → decode body = none →
      (JsonCall m u bIn (.response status body) (some decode)).2 =
        ((some .decodeError, status), none)) := by
  refine ⟨?_, ?_, ?_, ?_⟩
  · intro h
    subst h
    exact jsonCall_snd_404 m u bIn body (some decode)
  · intro h4 h3
    exact jsonCall_snd_ge300 m u bIn status body (some decode) h4 h3
  · intro h v hv
    rw [jsonCall_snd_ok m u bIn status body decode h, hv]
  · intro h hv
    rw [jsonCall_snd_ok m u bIn status body decode h, hv]

/-- Witness for C1 at concrete statuses 404, 500, 200 (well-formed and
malformed body). -/
theorem jsonCall_response_classification_witness :
    (JsonCall "GET" "u" none (.response 404 .null)
        (some (fun j => some j))).2 = ((none, 404), none) ∧
    (JsonCall "GET" "u" none (.response 500 .null)
        (some (fun j => some j))).2 = ((some (.apiError 500), 500), none) ∧
    (JsonCall "GET" "u" none (.response 200 (.str "x"))
        (some (fun j => some j))).2 = ((none, 200), some (.str "x")) ∧
    (JsonCall "GET" "u" none (.response 200 (.str "x"))
        (some (fun _ => (none : Option Json)))).2 =
      ((some .decodeError, 200), none) :=
  ⟨(jsonCall_response_classification "GET" "u" none 404 .null
      (fun j => some j)).1 rfl,
   (jsonCall_response_classification "GET" "u" none 500 .null
      (fun j => some j)).2.1 (by decide) (by decide),
   (jsonCall_response_classification "GET" "u" none 200 (.str "x")
      (fun j => some j)).2.2.1 (by decide) (.str "x") rfl,
   (jsonCall_response_classification "GET" "u" none 200 (.str "x")
      (fun _ => none)).2.2.2 (by decide) rfl⟩

/-- C3: Get on a 404 response returns no error and no resource, for
process groups, processors and connections alike. -/
theorem get_on_404_returns_nil_nil (cfg : Config) (body : Json)
    (dg : Json → Option ProcessGroup) (dp : Json → Option Processor)
    (dc : Json → Option Connection) (pgId procId connId : String) :
    (GetProcessGroup cfg (.response 404 body) dg pgId).2 = (none, none) ∧
    (GetProcessor cfg (.response 404 body) dp procId).2 = (none, none) ∧
    (GetConnection cfg (.response 404 body) dc connId).2 = (none, none) :=
  ⟨rfl, rfl, rfl⟩

/-- C7 counterexample: Delete on an already-absent resource (server
responds 404) returns a nil error, not the generic non-2xx error the
claim predicts. -/
theorem delete_on_404_counterexample :
    (DeleteProcessGroup exCfg (.response 404 .null) "pg1").2 = none ∧
    (DeleteProcessGroup exCfg (.response 404 .null) "pg1").2 ≠
      some (.apiError 404) := by
  refine ⟨rfl, ?_⟩
  intro h
  rw [show (DeleteProcessGroup exCfg (.response 404 .null) "pg1").2 = none
    from rfl] at h
  exact Option.noConfusion h

/-- C7 amended: Delete on an already-absent resource returns a nil
error (the primitive special-cases 404 before its ≥ 300 check), for
process groups, processors and connections alike. -/
theorem delete_on_404_succeeds (cfg : Config) (body : Json)
    (pgId procId connId : String) :
    (DeleteProcessGroup cfg (.response 404 body) pgId).2 = none ∧
    (DeleteProcessor cfg (.response 404 body) procId).2 = none ∧
    (DeleteConnection cfg (.response 404 body) connId).2 = none :=
  ⟨rfl, rfl, rfl⟩

/-- C9: the error from encoding the payload is discarded — the call's
result is the same whether encoding failed or not — and the request is
issued with whatever bytes were written to the buffer. -/
theorem jsonCall_ignores_encode_error {α : Type} (m u : String)
    (written e : String) (outcome : HttpOutcome)
    (bOut : Option (Json → Option α)) :
    JsonCall m u (some { written := written, encError := some e })
        outcome bOut =
      JsonCall m u (some { written := written, encError := none })
        outcome bOut ∧
    (JsonCall m u (some { written := written, encError := some e })
        outcome bOut).1.body = some written := by
  refine ⟨rfl, ?_⟩
  rw [jsonCall_request]
  rfl

/-- C10: a 404 response to the state-transition PUT yields a nil error
and still sets the in-memory state, making the result identical to
that of a 200 response. -/
theorem setProcessorState_404_succeeds (cfg : Config) (p : Processor)
    (s : String) (body okBody : Json) :
    (SetProcessorState cfg (.response 404 body) p s).2 =
      ({ p with component.state := s }, none) ∧
    SetProcessorState cfg (.response 404 body) p s =
      SetProcessorState cfg (.response 200 okBody) p s :=
  ⟨rfl, rfl⟩

/-- C4: a successful state transition updates only the in-memory state
field (the result is the input with just `Component.State` replaced);
a failed one returns the input untouched, state field included. -/
theorem setProcessorState_frame_effect (cfg : Config) (outcome : HttpOutcome)
    (p : Processor) (s : String) :
    ((SetProcessorState cfg outcome p s).2.2 = none →
      (SetProcessorState cfg outcome p s).2.1 =
        { p with component.state := s }) ∧
    ((SetProcessorState cfg outcome p s).2.2 ≠ none →
      (SetProcessorState cfg outcome p s).2.1 = p) := by
  rw [SetProcessorState_eq]
  dsimp only
  cases herr : (JsonCall "PUT"
      ("http://" ++ cfg.host ++ "/" ++ cfg.apiPath ++ "/processors/" ++
        p.component.id)
      (some (goEncode (stateUpdateBody p s).toJson)) outcome
      (none : Option (Json → Option Unit))).2.1.1 with
  | none => exact ⟨fun _ => rfl, fun hne => absurd rfl hne⟩
  | some e => exact ⟨fun hc => Option.noConfusion hc, fun _ => rfl⟩

/-- Witness for C4: a 200 response updates only the state field; a 500
response leaves the structure untouched. -/
theorem setProcessorState_frame_effect_witness :
    (SetProcessorState exCfg (.response 200 .null) exProcessor "RUNNING").2.1 =
      { exProcessor with component.state := "RUNNING" } ∧
    (SetProcessorState exCfg (.response 500 .null) exProcessor "RUNNING").2.1 =
      exProcessor :=
  ⟨(setProcessorState_frame_effect exCfg (.response 200 .null) exProcessor
      "RUNNING").1 rfl,
   (setProcessorState_frame_effect exCfg (.response 500 .null) exProcessor
      "RUNNING").2 (fun h => Option.noConfusion h)⟩

/-- C5: the nil-property normalization keeps exactly the non-null
entries, is idempotent, and the processor handed back by
`CreateProcessor`, `GetProcessor` and `UpdateProcessor` carries no
null-valued property. -/
theorem processorCleanup_spec (p : Processor) (cfg : Config)
    (outcome : HttpOutcome) (decode : Json → Option Processor)
    (processorId : String) :
    ProcessorCleanupNilProperties (ProcessorCleanupNilProperties p) =
      ProcessorCleanupNilProperties p ∧
    (∀ kvs ckvs kv, p.component.config.properties = some kvs →
      (ProcessorCleanupNilProperties p).component.config.properties =
        some ckvs →
      (kv ∈ ckvs ↔ kv ∈ kvs ∧ kv.2 ≠ Json.null)) ∧
    noNilProperties (CreateProcessor cfg outcome decode p).2.1 = true ∧
    noNilProperties (UpdateProcessor cfg outcome decode p).2.1 = true ∧
    (∀ r, (GetProcessor cfg outcome decode processorId).2.1 = some r →
      noNilProperties r = true) := by
  refine ⟨?_, ?_, ?_, ?_, ?_⟩
  · obtain ⟨rev, id, pgid, nm, ty, pos, st, ⟨ss, sp, cc, props, atr⟩, rels⟩ := p
    cases props with
    | none => rfl
    | some l =>
      simp [ProcessorCleanupNilProperties, List.filter_filter]
  · intro kvs ckvs kv hp hc
    obtain ⟨rev, id, pgid, nm, ty, pos, st, ⟨ss, sp, cc, props, atr⟩, rels⟩ := p
    simp only at hp
    subst hp
    simp only [ProcessorCleanupNilProperties, Option.map_some,
      Option.map_some', Option.some_inj] at hc
    subst hc
    rw [List.mem_filter, Bool.not_eq_eq_eq_not, Bool.not_true,
      Json.isNull_eq_false_iff kv.2]
  · exact noNilProperties_cleanup _
  · exact noNilProperties_cleanup _
  · intro r hr
    rw [GetProcessor_eq] at hr
    dsimp only at hr
    cases herr : (JsonCall "GET"
        ("http://" ++ cfg.host ++ "/" ++ cfg.apiPath ++ "/processors/" ++
          processorId) none outcome (some decode)).2.1.1 with
    | some e => rw [herr] at hr; exact Option.noConfusion hr
    | none =>
      rw [herr] at hr
      dsimp only at hr
      split at hr
      · exact Option.noConfusion hr
      cases hout : (JsonCall "GET"
          ("http://" ++ cfg.host ++ "/" ++ cfg.apiPath ++ "/processors/" ++
            processorId) none outcome (some decode)).2.2 with
      | none => rw [hout] at hr; exact Option.noConfusion hr
      | some q =>
        rw [hout] at hr
        dsimp only at hr
        rw [Option.some_inj] at hr
        subst hr
        exact noNilProperties_cleanup q

/-- Witness for C5 at `exProcessor`, whose mapping holds the null-valued
key `"drop"` and the kept entry `("keep", "v")`. -/
theorem processorCleanup_spec_witness :
    ("keep", Json.str "v") ∈
      (ProcessorCleanupNilProperties exProcessor
        ).component.config.properties.getD [] ∧
    noNilProperties
      (CreateProcessor exCfg (.response 200 .null)
        (fun _ => some exProcessor) exProcessor).2.1 = true ∧
    noNilProperties exGetResult = true := by
  have h := processorCleanup_spec exProcessor exCfg (.response 200 .null)
    (fun _ => some exProcessor) "p1"
  refine ⟨?_, h.2.2.1, h.2.2.2.2 exGetResult rfl⟩
  exact (h.2.1 [("keep", .str "v"), ("drop", .null)] [("keep", .str "v")]
    ("keep", .str "v") rfl rfl).mpr
    ⟨List.mem_cons_self _ _, fun hq => Json.noConfusion hq⟩

/-- C6: the processor returned by `GetProcessor` carries, in
`Config.AutoTerminatedRelationships`, exactly the names of its
relationships whose auto-terminate flag is true. -/
theorem getProcessor_autoTerminated_projection (cfg : Config)
    (outcome : HttpOutcome) (decode : Json → Option Processor)
    (processorId : String) (r : Processor)
    (h : (GetProcessor cfg outcome decode processorId).2.1 = some r) :
    r.component.config.autoTerminatedRelationships =
      some (((r.component.relationships.getD []).filter
        (fun rel => rel.autoTerminate)).map (fun rel => rel.name)) := by
  rw [GetProcessor_eq] at h
  dsimp only at h
  cases herr : (JsonCall "GET"
      ("http://" ++ cfg.host ++ "/" ++ cfg.apiPath ++ "/processors/" ++
        processorId) none outcome (some decode)).2.1.1 with
  | some e => rw [herr] at h; exact Option.noConfusion h
  | none =>
    rw [herr] at h
    dsimp only at h
    split at h
    · exact Option.noConfusion h
    cases hout : (JsonCall "GET"
        ("http://" ++ cfg.host ++ "/" ++ cfg.apiPath ++ "/processors/" ++
          processorId) none outcome (some decode)).2.2 with
    | none => rw [hout] at h; exact Option.noConfusion h
    | some q =>
      rw [hout] at h
      dsimp only at h
      rw [Option.some_inj] at h
      subst h
      exact congrArg some
        (foldl_autoTerminate
          ((ProcessorCleanupNilProperties q).component.relationships.getD [])
          [])

/-- Witness for C6: fetching a processor whose body decodes to
relationships success(auto-terminated) and failure(not) yields
`AutoTerminatedRelationships == ["success"]`. -/
theorem getProcessor_autoTerminated_witness :
    (GetProcessor exCfg (.response 200 .null) (fun _ => some exProcessor)
        "p1").2.1 = some exGetResult ∧
    exGetResult.component.config.autoTerminatedRelationships =
      some ["success"] :=
  ⟨rfl,
   (getProcessor_autoTerminated_projection exCfg (.response 200 .null)
      (fun _ => some exProcessor) "p1" exGetResult rfl).trans rfl⟩

/-- C2 counterexample: the body `SetProcessorState` serializes for
`exProcessor` carries component fields beyond the id and the run-state
— among them `parentGroupId` — because every field of
`ProcessorComponent` except `Id` and `State` lacks `omitempty` and so
is serialized at its zero value. -/
theorem setProcessorState_body_counterexample :
    componentFieldNames
        (Processor.toJson (stateUpdateBody exProcessor "RUNNING")) =
      ["id", "parentGroupId", "name", "type", "position", "state",
       "config", "relationships"] ∧
    "parentGroupId" ∈ componentFieldNames
        (Processor.toJson (stateUpdateBody exProcessor "RUNNING")) ∧
    ("parentGroupId" : String) ≠ "id" ∧
    ("parentGroupId" : String) ≠ "state" := by
  refine ⟨rfl, ?_, by decide, by decide⟩
  rw [show componentFieldNames
      (Processor.toJson (stateUpdateBody exProcessor "RUNNING")) =
    ["id", "parentGroupId", "name", "type", "position", "state",
     "config", "relationships"] from rfl]
  simp

/-- C2 amended: the state-transition PUT (issued by `StartProcessor`
and `StopProcessor` through `SetProcessorState`) serializes a body
whose only caller-dependent data are the processor id, the last-known
revision and the target run-state; every other component field appears
in the body at its zero value (empty strings, origin position, null
config collections, null relationships), `id` and `state` being
omitted exactly when empty. -/
theorem setProcessorState_minimal_body (cfg : Config) (outcome : HttpOutcome)
    (p : Processor) (s : String) :
    StartProcessor cfg outcome p = SetProcessorState cfg outcome p "RUNNING" ∧
    StopProcessor cfg outcome p = SetProcessorState cfg outcome p "STOPPED" ∧
    (SetProcessorState cfg outcome p s).1 =
      { method := "PUT",
        url := "http://" ++ cfg.host ++ "/" ++ cfg.apiPath ++
          "/processors/" ++ p.component.id,
        body := some ((Processor.toJson (stateUpdateBody p s)).render ++ "\n"),
        contentType := some "application/json; charset=utf-8" } ∧
    Processor.toJson (stateUpdateBody p s) =
      .obj [("revision", .obj [("version", .num p.revision.version)]),
        ("component", .obj
          ((if p.component.id = "" then [] else [("id", .str p.component.id)]) ++
           [("parentGroupId", .str ""), ("name", .str ""), ("type", .str ""),
            ("position", .obj [("x", .num 0), ("y", .num 0)])] ++
           (if s = "" then [] else [("state", .str s)]) ++
           [("config", .obj
              [("schedulingStrategy", .str ""),
               ("schedulingPeriod", .str ""),
               ("concurrentlySchedulableTaskCount", .num 0),
               ("properties", .null),
               ("autoTerminatedRelationships", .null)]),
            ("relationships", .null)]))] := by
  refine ⟨rfl, rfl, ?_, rfl⟩
  rw [SetProcessorState_eq]
  dsimp only
  cases herr : (JsonCall "PUT"
      ("http://" ++ cfg.host ++ "/" ++ cfg.apiPath ++ "/processors/" ++
        p.component.id)
      (some (goEncode (stateUpdateBody p s).toJson)) outcome
      (none : Option (Json → Option Unit))).2.1.1 <;>
    (dsimp only; rw [jsonCall_request]; rfl)

/-- C8 counterexample: creating `exGroup5`, whose revision is 5, puts
revision 5 — not zero — in the request body. -/
theorem createProcessGroup_revision_counterexample :
    (CreateProcessGroup exCfg (.response 500 .null) (fun _ => none)
        exGroup5).1.body =
      some ((ProcessGroup.toJson exGroup5).render ++ "\n") ∧
    topField (ProcessGroup.toJson exGroup5) "revision" =
      some (.obj [("version", .num 5)]) ∧
    topField (ProcessGroup.toJson exGroup5) "revision" ≠
      some (.obj [("version", .num 0)]) := by
  refine ⟨rfl, rfl, ?_⟩
  intro h
  rw [show topField (ProcessGroup.toJson exGroup5) "revision" =
    some (.obj [("version", .num 5)]) from rfl] at h
  simp at h

/-- C8 amended: `CreateProcessGroup` issues a POST to the parent
group's sub-collection endpoint whose body serializes the input as-is
— carrying the input's revision, which is zero only when the caller
supplies zero — and on a decoded success the response overwrites the
input structure in place. -/
theorem createProcessGroup_amended (cfg : Config) (outcome : HttpOutcome)
    (decode : Json → Option ProcessGroup) (pg : ProcessGroup) :
    (CreateProcessGroup cfg outcome decode pg).1 =
      { method := "POST",
        url := "http://" ++ cfg.host ++ "/" ++ cfg.apiPath ++
          "/process-groups/" ++ pg.component.parentGroupId ++
          "/process-groups",
        body := some ((ProcessGroup.toJson pg).render ++ "\n"),
        contentType := some "application/json; charset=utf-8" } ∧
    topField (ProcessGroup.toJson pg) "revision" =
      some (.obj [("version", .num pg.revision.version)]) ∧
    (∀ status body v, status < 300 → decode body = some v →
      (CreateProcessGroup cfg (.response status body) decode pg).2 =
        (v, none)) := by
  refine ⟨?_, rfl, ?_⟩
  · rw [show (CreateProcessGroup cfg outcome decode pg).1 =
        (JsonCall "POST" ("http://" ++ cfg.host ++ "/" ++ cfg.apiPath ++
          "/process-groups/" ++ pg.component.parentGroupId ++
          "/process-groups") (some (goEncode pg.toJson)) outcome
          (some decode)).1 from rfl,
      jsonCall_request]
    rfl
  · intro status body v hst hv
    have hc := jsonCall_snd_ok "POST"
      ("http://" ++ cfg.host ++ "/" ++ cfg.apiPath ++ "/process-groups/" ++
        pg.component.parentGroupId ++ "/process-groups")
      (some (goEncode pg.toJson)) status body decode hst
    rw [hv] at hc
    have ho : (JsonCall "POST"
        ("http://" ++ cfg.host ++ "/" ++ cfg.apiPath ++ "/process-groups/" ++
          pg.component.parentGroupId ++ "/process-groups")
        (some (goEncode pg.toJson)) (.response status body)
        (some decode)).2.2 = some v := by rw [hc]
    have he : (JsonCall "POST"
        ("http://" ++ cfg.host ++ "/" ++ cfg.apiPath ++ "/process-groups/" ++
          pg.component.parentGroupId ++ "/process-groups")
        (some (goEncode pg.toJson)) (.response status body)
        (some decode)).2.1.1 = none := by rw [hc]
    show ((JsonCall "POST"
        ("http://" ++ cfg.host ++ "/" ++ cfg.apiPath ++ "/process-groups/" ++
          pg.component.parentGroupId ++ "/process-groups")
        (some (goEncode pg.toJson)) (.response status body)
        (some decode)).2.2.getD pg,
      (JsonCall "POST"
        ("http://" ++ cfg.host ++ "/" ++ cfg.apiPath ++ "/process-groups/" ++
          pg.component.parentGroupId ++ "/process-groups")
        (some (goEncode pg.toJson)) (.response status body)
        (some decode)).2.1.1) = (v, none)
    rw [ho, he]
    rfl

/-- Witness for C8 amended: a 200 response whose body decodes to
`exGroupCreated` overwrites the input `exGroup5` in place. -/
theorem createProcessGroup_amended_witness :
    (CreateProcessGroup exCfg (.response 200 .null)
        (fun _ => some exGroupCreated) exGroup5).2 = (exGroupCreated, none) :=
  (createProcessGroup_amended exCfg (.response 200 .null)
      (fun _ => some exGroupCreated) exGroup5).2.2 200 .null exGroupCreated
    (by decide) rfl

end Nifi
